import Mathlib

set_option autoImplicit false

/-!
Shallow embedding of the post-repository layer of `app.py` (a flat-file blog
application).  Python dicts holding posts become the `Post` structure, the
`posts.json` file becomes a `FileState`, JSON values become the `Json`
inductive, and uncaught Python exceptions become the `PyErr` error type of
`Except`.  Each Flask handler's mutating branch becomes a pure function from
the request parameters and the file state to a rendered result plus the new
file state.
-/

namespace Masterblog

/-- A fully validated post record, the five fields of a post dict.
Python ints are unbounded, hence `Int` for `id` and `likes`. -/
structure Post where
  id : Int
  author : String
  title : String
  content : String
  likes : Int
deriving DecidableEq, Repr

/-- JSON values, as produced by `json.load`.  A Python bool is kept separate
because `json` distinguishes `true` from `1`, while `isinstance(b, int)` is
true for bools. -/
inductive Json where
  | null
  | bool (b : Bool)
  | int (n : Int)
  | str (s : String)
  | arr (elems : List Json)
  | obj (fields : List (String × Json))

/-- Uncaught Python exceptions that can escape the embedded functions. -/
inductive PyErr where
  | attributeError
  | permissionError
deriving DecidableEq, Repr

/-- The state of `posts.json` on disk: absent (`FileNotFoundError` on open),
existing but unreadable (`PermissionError` on open), readable but not valid
JSON (`json.JSONDecodeError`), or readable with a parsed JSON value. -/
inductive FileState where
  | missing
  | unreadable
  | malformed
  | content (j : Json)

/-- `dict.get` on the dict built from a JSON object: for duplicate keys the
last occurrence wins, as in Python's `json` parser. -/
def dictGet : List (String × Json) → String → Option Json
  | [], _ => none
  | kv :: rest, key =>
    match dictGet rest key with
    | some v => some v
    | none => if kv.1 == key then some kv.2 else none

/-- `isinstance(x, str)` projection of an optional field value. -/
def strVal : Option Json → Option String
  | some (Json.str s) => some s
  | _ => none

/-- `isinstance(x, int)` projection: Python bools are ints with values 1/0. -/
def intVal : Json → Option Int
  | Json.int n => some n
  | Json.bool b => some (if b then 1 else 0)
  | _ => none

/-- The validation `load_posts` performs on one element of the loaded list.
`Except.error .attributeError`: the element is not a dict, so `post.get`
raises an uncaught `AttributeError`.  `Except.ok none`: the element is a dict
failing a type check, so `load_posts` raises `ValueError` (caught by its own
handler).  `Except.ok (some p)`: the element passes all checks. -/
def decodeElem (j : Json) : Except PyErr (Option Post) :=
  match j with
  | Json.obj kvs =>
    match strVal (dictGet kvs "author"), strVal (dictGet kvs "title"),
        strVal (dictGet kvs "content") with
    | some a, some t, some c =>
      match (dictGet kvs "id").bind intVal, (dictGet kvs "likes").bind intVal with
      | some i, some l => Except.ok (some ⟨i, a, t, c, l⟩)
      | _, _ => Except.ok none
    | _, _, _ => Except.ok none
  | _ => Except.error PyErr.attributeError

/-- The validation loop of `load_posts` over the whole list, stopping at the
first failing element exactly as the Python `for` loop does. -/
def decodePosts : List Json → Except PyErr (Option (List Post))
  | [] => Except.ok (some [])
  | j :: rest =>
    match decodeElem j with
    | Except.error e => Except.error e
    | Except.ok none => Except.ok none
    | Except.ok (some p) =>
      match decodePosts rest with
      | Except.error e => Except.error e
      | Except.ok none => Except.ok none
      | Except.ok (some ps) => Except.ok (some (p :: ps))

/-- The two hard-coded posts returned when loading fails with a caught
exception. -/
def defaultPosts : List Post :=
  [⟨1, "John Doe", "First Post", "This is my first post.", 0⟩,
   ⟨2, "Jane Doe", "Second Post", "This is another post.", 0⟩]

/-- `load_posts`: read and validate `posts.json`.  `FileNotFoundError`,
`JSONDecodeError` and the `ValueError`s raised by the structural checks are
caught and produce `defaultPosts`; a `PermissionError` on open and an
`AttributeError` from `post.get` on a non-dict element are not caught. -/
def load_posts (fs : FileState) : Except PyErr (List Post) :=
  match fs with
  | FileState.missing => Except.ok defaultPosts
  | FileState.unreadable => Except.error PyErr.permissionError
  | FileState.malformed => Except.ok defaultPosts
  | FileState.content j =>
    match j with
    | Json.arr elems =>
      match decodePosts elems with
      | Except.error e => Except.error e
      | Except.ok none => Except.ok defaultPosts
      | Except.ok (some ps) => Except.ok ps
    | _ => Except.ok defaultPosts

/-- Serialization of one post dict, the five keys in insertion order. -/
def encodePost (p : Post) : Json :=
  Json.obj [("id", Json.int p.id), ("author", Json.str p.author),
            ("title", Json.str p.title), ("content", Json.str p.content),
            ("likes", Json.int p.likes)]

/-- `json.dump` of the whole collection. -/
def encodePosts (ps : List Post) : Json :=
  Json.arr (ps.map encodePost)

/-- `save_posts`: rewrite `posts.json` with the serialized collection,
returning a success flag.  `writable` models whether opening for write
succeeds; on failure the function returns `false` and the file is unchanged. -/
def save_posts (writable : Bool) (fs : FileState) (ps : List Post) :
    Bool × FileState :=
  if writable then (true, FileState.content (encodePosts ps))
  else (false, fs)

/-- `fetch_post_by_id`: full load then linear scan for the first post with
the given id. -/
def fetch_post_by_id (fs : FileState) (post_id : Int) :
    Except PyErr (Option Post) :=
  match load_posts fs with
  | Except.error e => Except.error e
  | Except.ok posts => Except.ok (posts.find? (fun p => p.id == post_id))

/-- `validate_post_data`: Python `not all([author, title, content])` rejects
when any field is the empty string (falsy); then each field is checked
against its length cap. -/
def validate_post_data (author title content : String) : Bool × String :=
  if author = "" ∨ title = "" ∨ content = "" then
    (false, "All fields are required.")
  else if author.length > 100 ∨ title.length > 200 ∨ content.length > 10000 then
    (false, "Input exceeds maximum length.")
  else (true, "")

/-- `html.escape` with its default `quote=True`. -/
def escapeChar (c : Char) : String :=
  if c = '&' then "&amp;"
  else if c = '<' then "&lt;"
  else if c = '>' then "&gt;"
  else if c = '"' then "&quot;"
  else if c = Char.ofNat 39 then "&#x27;"
  else String.singleton c

/-- `html.escape` applied to a whole string. -/
def escape (s : String) : String :=
  String.join (s.data.map escapeChar)

/-- What a handler's mutating branch renders: a redirect to the index page
or `render_template('error.html', message, status)`. -/
inductive HandlerResult where
  | redirectIndex
  | errorPage (message : String) (status : Nat)
deriving DecidableEq, Repr

/-- `max([post['id'] for post in posts], default=0)`. -/
def maxIdDefault0 (ps : List Post) : Int :=
  match ps.map Post.id with
  | [] => 0
  | x :: xs => xs.foldl max x

/-- The `POST` branch of the `add` handler: escape the form fields, validate,
load, append a post with id `max(existing ids)+1` and `likes=0`, save. -/
def add (writable : Bool) (fs : FileState)
    (rawAuthor rawTitle rawContent : String) :
    Except PyErr (HandlerResult × FileState) :=
  let author := escape rawAuthor
  let title := escape rawTitle
  let content := escape rawContent
  let v := validate_post_data author title content
  if v.1 then
    match load_posts fs with
    | Except.error e => Except.error e
    | Except.ok posts =>
      let new_id := maxIdDefault0 posts + 1
      let new_post : Post := ⟨new_id, author, title, content, 0⟩
      match save_posts writable fs (posts ++ [new_post]) with
      | (true, fs2) => Except.ok (HandlerResult.redirectIndex, fs2)
      | (false, fs2) => Except.ok (HandlerResult.errorPage "Failed to save post" 500, fs2)
  else Except.ok (HandlerResult.errorPage v.2 400, fs)

/-- The `delete` handler: 404 when `fetch_post_by_id` finds nothing,
otherwise filter the post out and save. -/
def delete (writable : Bool) (fs : FileState) (post_id : Int) :
    Except PyErr (HandlerResult × FileState) :=
  match fetch_post_by_id fs post_id with
  | Except.error e => Except.error e
  | Except.ok none => Except.ok (HandlerResult.errorPage "Post not found" 404, fs)
  | Except.ok (some _) =>
    match load_posts fs with
    | Except.error e => Except.error e
    | Except.ok posts =>
      match save_posts writable fs (posts.filter (fun p => p.id != post_id)) with
      | (true, fs2) => Except.ok (HandlerResult.redirectIndex, fs2)
      | (false, fs2) => Except.ok (HandlerResult.errorPage "Failed to save changes" 500, fs2)

/-- The update loop: mutate the first post with the matching id, then
`break`. -/
def updateFirst : List Post → Int → String → String → String → List Post
  | [], _, _, _, _ => []
  | p :: rest, pid, a, t, c =>
    if p.id = pid then { p with author := a, title := t, content := c } :: rest
    else p :: updateFirst rest pid a t c

/-- The `POST` branch of the `update` handler: 404 when the id is absent,
then escape, validate, mutate the matching post in place, save. -/
def update (writable : Bool) (fs : FileState) (post_id : Int)
    (rawAuthor rawTitle rawContent : String) :
    Except PyErr (HandlerResult × FileState) :=
  match fetch_post_by_id fs post_id with
  | Except.error e => Except.error e
  | Except.ok none => Except.ok (HandlerResult.errorPage "Post not found" 404, fs)
  | Except.ok (some _) =>
    let author := escape rawAuthor
    let title := escape rawTitle
    let content := escape rawContent
    let v := validate_post_data author title content
    if v.1 then
      match load_posts fs with
      | Except.error e => Except.error e
      | Except.ok posts =>
        match save_posts writable fs (updateFirst posts post_id author title content) with
        | (true, fs2) => Except.ok (HandlerResult.redirectIndex, fs2)
        | (false, fs2) => Except.ok (HandlerResult.errorPage "Failed to save changes" 500, fs2)
    else Except.ok (HandlerResult.errorPage v.2 400, fs)

/-- The like loop: `post['likes'] = post.get('likes', 0) + 1` on the first
post with the matching id, then `break`. -/
def likeFirst : List Post → Int → List Post
  | [], _ => []
  | p :: rest, pid =>
    if p.id = pid then { p with likes := p.likes + 1 } :: rest
    else p :: likeFirst rest pid

/-- The `like` handler: 404 when the id is absent, otherwise increment the
matching post's likes and save. -/
def like (writable : Bool) (fs : FileState) (post_id : Int) :
    Except PyErr (HandlerResult × FileState) :=
  match fetch_post_by_id fs post_id with
  | Except.error e => Except.error e
  | Except.ok none => Except.ok (HandlerResult.errorPage "Post not found" 404, fs)
  | Except.ok (some _) =>
    match load_posts fs with
    | Except.error e => Except.error e
    | Except.ok posts =>
      match save_posts writable fs (likeFirst posts post_id) with
      | (true, fs2) => Except.ok (HandlerResult.redirectIndex, fs2)
      | (false, fs2) => Except.ok (HandlerResult.errorPage "Failed to save changes" 500, fs2)

/-- A file holding the empty JSON list: the empty store. -/
def emptyStore : FileState := FileState.content (Json.arr [])

/-- Repeated calls of the `add` handler, threading the file state.  The
error branch is unreachable from a well-formed store but keeps the fold
total. -/
def runAdds (fs : FileState) (inputs : List (String × String × String)) :
    FileState :=
  inputs.foldl
    (fun s i =>
      match add true s i.1 i.2.1 i.2.2 with
      | Except.ok r => r.2
      | Except.error _ => s) fs

/-- The list `[1, 2, ..., n]` as integers. -/
def idsUpTo : Nat → List Int
  | 0 => []
  | n + 1 => idsUpTo n ++ [(n : Int) + 1]

/-- `max(xs, default=0)` on a list of ints. -/
def maxList : List Int → Int
  | [] => 0
  | x :: xs => xs.foldl max x

theorem maxIdDefault0_eq_maxList (ps : List Post) :
    maxIdDefault0 ps = maxList (ps.map Post.id) := by
  unfold maxIdDefault0 maxList
  cases ps.map Post.id <;> rfl

theorem decodeElem_encodePost (p : Post) :
    decodeElem (encodePost p) = Except.ok (some p) := by
  simp [decodeElem, encodePost, dictGet, strVal, intVal, Option.bind]

theorem decodePosts_encode (ps : List Post) :
    decodePosts (ps.map encodePost) = Except.ok (some ps) := by
  induction ps with
  | nil => rfl
  | cons p rest ih => simp [decodePosts, ih, decodeElem_encodePost]

theorem load_posts_encode (ps : List Post) :
    load_posts (FileState.content (encodePosts ps)) = Except.ok ps := by
  simp [load_posts, encodePosts, decodePosts_encode]

theorem load_posts_save (fs : FileState) (ps : List Post) :
    load_posts (save_posts true fs ps).2 = Except.ok ps := by
  simp [save_posts, load_posts_encode]

theorem le_foldl_max (xs : List Int) (a : Int) : a ≤ xs.foldl max a := by
  induction xs generalizing a with
  | nil => exact le_refl a
  | cons x xs ih => exact le_trans (le_max_left a x) (ih (max a x))

theorem mem_le_foldl_max (xs : List Int) (a x : Int) (hx : x ∈ xs) :
    x ≤ xs.foldl max a := by
  induction xs generalizing a with
  | nil => cases hx
  | cons y ys ih =>
    cases hx with
    | head => exact le_trans (le_max_right a x) (le_foldl_max ys (max a x))
    | tail _ h => exact ih (max a y) h

theorem mem_le_maxList (xs : List Int) (x : Int) (hx : x ∈ xs) :
    x ≤ maxList xs := by
  cases xs with
  | nil => cases hx
  | cons y ys =>
    cases hx with
    | head => exact le_foldl_max ys x
    | tail _ h => exact mem_le_foldl_max ys y x h

theorem maxList_append_singleton (xs : List Int) (a : Int) :
    maxList (xs ++ [a]) = if xs = [] then a else max (maxList xs) a := by
  cases xs with
  | nil => rfl
  | cons y ys => simp [maxList, List.foldl_append]

theorem maxList_idsUpTo (n : Nat) : maxList (idsUpTo n) = (n : Int) := by
  induction n with
  | zero => rfl
  | succ m ih =>
    rw [idsUpTo, maxList_append_singleton]
    by_cases h : idsUpTo m = []
    · rw [h] at ih
      simp only [h, if_pos]
      simp only [maxList] at ih
      omega
    · rw [if_neg h, ih]
      push_cast
      omega

theorem updateFirst_map_id (ps : List Post) (pid : Int) (a t c : String) :
    (updateFirst ps pid a t c).map Post.id = ps.map Post.id := by
  induction ps with
  | nil => rfl
  | cons p rest ih =>
    by_cases h : p.id = pid
    · simp [updateFirst, h]
    · simp [updateFirst, h, ih]

theorem likeFirst_map_id (ps : List Post) (pid : Int) :
    (likeFirst ps pid).map Post.id = ps.map Post.id := by
  induction ps with
  | nil => rfl
  | cons p rest ih =>
    by_cases h : p.id = pid
    · simp [likeFirst, h]
    · simp [likeFirst, h, ih]

theorem filter_map_id (ps : List Post) (pid : Int) :
    (ps.filter (fun p => p.id != pid)).map Post.id =
      (ps.map Post.id).filter (fun i => i != pid) := by
  induction ps with
  | nil => rfl
  | cons p rest ih =>
    by_cases h : p.id = pid
    · have hb : (p.id != pid) = false := by simp [h]
      simp [List.filter_cons, hb, ih]
    · have hb : (p.id != pid) = true := by simp [h]
      simp [List.filter_cons, hb, ih]

theorem maxId_succ_not_mem (ps : List Post) :
    maxIdDefault0 ps + 1 ∉ ps.map Post.id := by
  intro hmem
  have hle := mem_le_maxList (ps.map Post.id) _ hmem
  rw [← maxIdDefault0_eq_maxList] at hle
  omega

theorem add_ok (fs : FileState) (ps : List Post) (ra rt rc : String)
    (h : load_posts fs = Except.ok ps)
    (hv : (validate_post_data (escape ra) (escape rt) (escape rc)).1 = true) :
    add true fs ra rt rc = Except.ok (HandlerResult.redirectIndex,
      FileState.content (encodePosts (ps ++
        [⟨maxIdDefault0 ps + 1, escape ra, escape rt, escape rc, 0⟩]))) := by
  simp [add, h, hv, save_posts]

theorem map_like_id (rest : List Post) (pid : Int)
    (h : ∀ q ∈ rest, q.id ≠ pid) :
    rest.map (fun q => if q.id = pid then { q with likes := q.likes + 1 } else q)
      = rest := by
  induction rest with
  | nil => rfl
  | cons r rs ih =>
    rw [List.map_cons, if_neg (h r (List.mem_cons_self r rs)),
      ih (fun q hq => h q (List.mem_cons_of_mem r hq))]

theorem likeFirst_eq_map (ps : List Post) (pid : Int)
    (hnd : (ps.map Post.id).Nodup) :
    likeFirst ps pid =
      ps.map (fun q => if q.id = pid then { q with likes := q.likes + 1 } else q) := by
  induction ps with
  | nil => rfl
  | cons p rest ih =>
    rw [List.map_cons, List.nodup_cons] at hnd
    by_cases h : p.id = pid
    · have hrest : ∀ q ∈ rest, q.id ≠ pid := by
        intro q hq hqe
        exact hnd.1 (h ▸ hqe ▸ List.mem_map_of_mem Post.id hq)
      simp [likeFirst, h, map_like_id rest pid hrest]
    · simp [likeFirst, h, ih hnd.2]

theorem find?_some_of_mem (ps : List Post) (p : Post) (hp : p ∈ ps) (pid : Int)
    (hid : p.id = pid) :
    ∃ q, ps.find? (fun r => r.id == pid) = some q := by
  cases hf : ps.find? (fun r => r.id == pid) with
  | some q => exact ⟨q, rfl⟩
  | none =>
    rw [List.find?_eq_none] at hf
    have := hf p hp
    simp [hid] at this

theorem find?_none_of_absent (ps : List Post) (pid : Int)
    (habs : ∀ p ∈ ps, p.id ≠ pid) :
    ps.find? (fun r => r.id == pid) = none := by
  rw [List.find?_eq_none]
  intro q hq
  simp [habs q hq]

theorem runAdds_ids (inputs : List (String × String × String)) :
    ∀ (k : Nat) (ps : List Post), ps.map Post.id = idsUpTo k →
    (∀ i ∈ inputs,
      (validate_post_data (escape i.1) (escape i.2.1) (escape i.2.2)).1 = true) →
    ∃ ps2 : List Post,
      load_posts (runAdds (FileState.content (encodePosts ps)) inputs) =
        Except.ok ps2 ∧
      ps2.map Post.id = idsUpTo (k + inputs.length) := by
  induction inputs with
  | nil =>
    intro k ps hids _
    exact ⟨ps, load_posts_encode ps, by simpa using hids⟩
  | cons i rest ih =>
    intro k ps hids hv
    have hvi := hv i (List.mem_cons_self i rest)
    have hstep := add_ok (FileState.content (encodePosts ps)) ps i.1 i.2.1 i.2.2
      (load_posts_encode ps) hvi
    have hmax : maxIdDefault0 ps = (k : Int) := by
      rw [maxIdDefault0_eq_maxList, hids, maxList_idsUpTo]
    have hrun : runAdds (FileState.content (encodePosts ps)) (i :: rest) =
        runAdds (FileState.content (encodePosts (ps ++
          [⟨maxIdDefault0 ps + 1, escape i.1, escape i.2.1, escape i.2.2, 0⟩]))) rest := by
      simp [runAdds, hstep]
    have hids2 : (ps ++
        [(⟨maxIdDefault0 ps + 1, escape i.1, escape i.2.1, escape i.2.2, 0⟩ : Post)]).map
          Post.id = idsUpTo (k + 1) := by
      simp [List.map_append, hids, idsUpTo, hmax]
    obtain ⟨ps2, hl, hi⟩ :=
      ih (k + 1) _ hids2 (fun j hj => hv j (List.mem_cons_of_mem i hj))
    refine ⟨ps2, by rw [hrun]; exact hl, ?_⟩
    rw [hi]
    congr 1
    simp [List.length_cons]
    omega

/-- C1: the claim says `load()` returns the fixed two-post fallback for every
absent, unreadable, unparseable or structurally invalid storage state and
never raises.  The code does fall back for a missing file, malformed JSON, a
non-list top level and a dict element with wrong or missing fields, but it
raises an uncaught `AttributeError` when a list element is not a dict, and an
uncaught `PermissionError` when the file exists but is unreadable. -/
theorem C1_load_uncaught_exceptions :
    load_posts (FileState.content (Json.arr [Json.int 1])) =
        Except.error PyErr.attributeError ∧
    load_posts FileState.unreadable = Except.error PyErr.permissionError ∧
    load_posts FileState.missing = Except.ok defaultPosts ∧
    load_posts FileState.malformed = Except.ok defaultPosts ∧
    load_posts (FileState.content (Json.int 0)) = Except.ok defaultPosts ∧
    load_posts (FileState.content (Json.arr [Json.obj [("id", Json.int 1)]])) =
        Except.ok defaultPosts :=
  ⟨rfl, rfl, rfl, rfl, rfl, rfl⟩

/-- C2: from the empty store, `n` valid `add` calls produce ids exactly
`[1, ..., n]` in creation order; in general the new id is
`max(existing ids) + 1`, which is `1` when the loaded collection is empty. -/
theorem C2_id_assignment :
    (∀ inputs : List (String × String × String),
      (∀ i ∈ inputs,
        (validate_post_data (escape i.1) (escape i.2.1) (escape i.2.2)).1 = true) →
      ∃ ps : List Post, load_posts (runAdds emptyStore inputs) = Except.ok ps ∧
        ps.map Post.id = idsUpTo inputs.length) ∧
    (∀ (fs : FileState) (ps : List Post) (ra rt rc : String),
      load_posts fs = Except.ok ps →
      (validate_post_data (escape ra) (escape rt) (escape rc)).1 = true →
      ∃ fs2, add true fs ra rt rc = Except.ok (HandlerResult.redirectIndex, fs2) ∧
        load_posts fs2 = Except.ok
          (ps ++ [⟨maxIdDefault0 ps + 1, escape ra, escape rt, escape rc, 0⟩]) ∧
        (ps = [] → maxIdDefault0 ps + 1 = 1)) := by
  constructor
  · intro inputs hv
    have h0 : (([] : List Post)).map Post.id = idsUpTo 0 := rfl
    have hmain := runAdds_ids inputs 0 [] h0 hv
    simpa [emptyStore, encodePosts] using hmain
  · intro fs ps ra rt rc h hv
    refine ⟨_, add_ok fs ps ra rt rc h hv, load_posts_encode _, ?_⟩
    intro hps
    subst hps
    decide

/-- Witness for C2 at one concrete valid input from the empty store. -/
theorem C2_id_assignment_witness :
    ∃ ps : List Post,
      load_posts (runAdds emptyStore [("a", "t", "c")]) = Except.ok ps ∧
      ps.map Post.id = idsUpTo 1 :=
  C2_id_assignment.1 [("a", "t", "c")] (by decide)

/-- C4: saving any collection of structurally valid posts and loading again
returns exactly the collection that was saved. -/
theorem C4_save_load_round_trip (fs : FileState) (ps : List Post) :
    load_posts (save_posts true fs ps).2 = Except.ok ps :=
  load_posts_save fs ps

/-- C3: when the target id is absent from the loaded collection, the delete,
update and like handlers each render the "Post not found" page with status
404 and leave the file state untouched (no save happens). -/
theorem C3_not_found_no_save (w : Bool) (fs : FileState) (ps : List Post)
    (pid : Int) (h : load_posts fs = Except.ok ps)
    (habs : ∀ p ∈ ps, p.id ≠ pid) (ra rt rc : String) :
    delete w fs pid =
        Except.ok (HandlerResult.errorPage "Post not found" 404, fs) ∧
    update w fs pid ra rt rc =
        Except.ok (HandlerResult.errorPage "Post not found" 404, fs) ∧
    like w fs pid =
        Except.ok (HandlerResult.errorPage "Post not found" 404, fs) := by
  have hf : fetch_post_by_id fs pid = Except.ok none := by
    simp [fetch_post_by_id, h, find?_none_of_absent ps pid habs]
  exact ⟨by simp [delete, hf], by simp [update, hf], by simp [like, hf]⟩

/-- Witness for C3: a store holding one post with id 1 and the absent id 5. -/
theorem C3_not_found_no_save_witness :
    delete true (FileState.content (encodePosts [⟨1, "a", "t", "c", 0⟩])) 5 =
        Except.ok (HandlerResult.errorPage "Post not found" 404,
          FileState.content (encodePosts [⟨1, "a", "t", "c", 0⟩])) ∧
    update true (FileState.content (encodePosts [⟨1, "a", "t", "c", 0⟩])) 5
        "x" "y" "z" =
        Except.ok (HandlerResult.errorPage "Post not found" 404,
          FileState.content (encodePosts [⟨1, "a", "t", "c", 0⟩])) ∧
    like true (FileState.content (encodePosts [⟨1, "a", "t", "c", 0⟩])) 5 =
        Except.ok (HandlerResult.errorPage "Post not found" 404,
          FileState.content (encodePosts [⟨1, "a", "t", "c", 0⟩])) :=
  C3_not_found_no_save true
    (FileState.content (encodePosts [⟨1, "a", "t", "c", 0⟩]))
    [⟨1, "a", "t", "c", 0⟩] 5 rfl (by decide) "x" "y" "z"

/-- C6: an author of exactly 100 characters is accepted, 101 is rejected, an
empty title is rejected regardless of the other fields, and in general
validation rejects exactly when a field is empty or over its cap
(author 100, title 200, content 10000). -/
theorem C6_validation_boundary :
    (validate_post_data (String.mk (List.replicate 100 'a')) "t" "c").1 = true ∧
    (validate_post_data (String.mk (List.replicate 101 'a')) "t" "c").1 = false ∧
    (∀ a c : String, (validate_post_data a "" c).1 = false) ∧
    (∀ a t c : String, (validate_post_data a t c).1 = false ↔
      (a = "" ∨ t = "" ∨ c = "" ∨ 100 < a.length ∨ 200 < t.length ∨
        10000 < c.length)) := by
  refine ⟨by decide, by decide, ?_, ?_⟩
  · intro a c
    simp [validate_post_data]
  · intro a t c
    by_cases h1 : a = "" ∨ t = "" ∨ c = ""
    · simp only [validate_post_data, if_pos h1]
      simp
      tauto
    · by_cases h2 : a.length > 100 ∨ t.length > 200 ∨ c.length > 10000
      · simp only [validate_post_data, if_neg h1, if_pos h2]
        simp
        tauto
      · simp only [validate_post_data, if_neg h1, if_neg h2]
        push_neg at h1 h2
        simp only [Bool.true_eq_false, false_iff]
        push_neg
        exact ⟨h1.1, h1.2.1, h1.2.2, by omega, by omega, by omega⟩

/-- Witness for C6: an empty title is rejected at concrete other fields. -/
theorem C6_validation_boundary_witness :
    (validate_post_data "x" "" "y").1 = false :=
  C6_validation_boundary.2.2.1 "x" "y"

theorem nodup_snoc (xs : List Int) (a : Int) (h1 : xs.Nodup) (h2 : a ∉ xs) :
    (xs ++ [a]).Nodup := by
  rw [List.nodup_append]
  refine ⟨h1, List.nodup_singleton a, ?_⟩
  intro x hx hxa
  rw [List.mem_singleton] at hxa
  exact h2 (hxa ▸ hx)

/-- C5: from any loaded collection with pairwise distinct ids, each of the
four operations yields a state that again loads with pairwise distinct ids,
and no operation changes an existing post's id: update and like keep the id
sequence unchanged, delete keeps exactly the non-matching ids in order, and
add at most appends one fresh id `max(existing ids) + 1`. -/
theorem C5_id_invariants (fs : FileState) (ps : List Post)
    (h : load_posts fs = Except.ok ps) (hnd : (ps.map Post.id).Nodup)
    (pid : Int) (ra rt rc : String) :
    (∃ r fs2 ps2, add true fs ra rt rc = Except.ok (r, fs2) ∧
      load_posts fs2 = Except.ok ps2 ∧ (ps2.map Post.id).Nodup ∧
      (ps2.map Post.id = ps.map Post.id ∨
       ps2.map Post.id = ps.map Post.id ++ [maxIdDefault0 ps + 1])) ∧
    (∃ r fs2 ps2, update true fs pid ra rt rc = Except.ok (r, fs2) ∧
      load_posts fs2 = Except.ok ps2 ∧ (ps2.map Post.id).Nodup ∧
      ps2.map Post.id = ps.map Post.id) ∧
    (∃ r fs2 ps2, like true fs pid = Except.ok (r, fs2) ∧
      load_posts fs2 = Except.ok ps2 ∧ (ps2.map Post.id).Nodup ∧
      ps2.map Post.id = ps.map Post.id) ∧
    (∃ r fs2 ps2, delete true fs pid = Except.ok (r, fs2) ∧
      load_posts fs2 = Except.ok ps2 ∧ (ps2.map Post.id).Nodup ∧
      ps2.map Post.id = (ps.map Post.id).filter (fun i => i != pid)) := by
  refine ⟨?_, ?_, ?_, ?_⟩
  · cases hv : (validate_post_data (escape ra) (escape rt) (escape rc)).1 with
    | false =>
      refine ⟨HandlerResult.errorPage
        (validate_post_data (escape ra) (escape rt) (escape rc)).2 400, fs, ps,
        ?_, h, hnd, Or.inl rfl⟩
      simp [add, hv]
    | true =>
      refine ⟨HandlerResult.redirectIndex, _, _,
        add_ok fs ps ra rt rc h hv, load_posts_encode _, ?_, Or.inr ?_⟩
      · rw [List.map_append]
        exact nodup_snoc (ps.map Post.id) (maxIdDefault0 ps + 1) hnd
          (maxId_succ_not_mem ps)
      · simp [List.map_append]
  · cases hfind : ps.find? (fun r => r.id == pid) with
    | none =>
      have hf : fetch_post_by_id fs pid = Except.ok none := by
        simp [fetch_post_by_id, h, hfind]
      exact ⟨HandlerResult.errorPage "Post not found" 404, fs, ps,
        by simp [update, hf], h, hnd, rfl⟩
    | some q =>
      have hf : fetch_post_by_id fs pid = Except.ok (some q) := by
        simp [fetch_post_by_id, h, hfind]
      cases hv : (validate_post_data (escape ra) (escape rt) (escape rc)).1 with
      | false =>
        exact ⟨HandlerResult.errorPage
          (validate_post_data (escape ra) (escape rt) (escape rc)).2 400, fs, ps,
          by simp [update, hf, hv], h, hnd, rfl⟩
      | true =>
        refine ⟨HandlerResult.redirectIndex,
          FileState.content (encodePosts
            (updateFirst ps pid (escape ra) (escape rt) (escape rc))),
          updateFirst ps pid (escape ra) (escape rt) (escape rc),
          ?_, load_posts_encode _, ?_, updateFirst_map_id ps pid _ _ _⟩
        · simp [update, hf, hv, h, save_posts]
        · rw [updateFirst_map_id]
          exact hnd
  · cases hfind : ps.find? (fun r => r.id == pid) with
    | none =>
      have hf : fetch_post_by_id fs pid = Except.ok none := by
        simp [fetch_post_by_id, h, hfind]
      exact ⟨HandlerResult.errorPage "Post not found" 404, fs, ps,
        by simp [like, hf], h, hnd, rfl⟩
    | some q =>
      have hf : fetch_post_by_id fs pid = Except.ok (some q) := by
        simp [fetch_post_by_id, h, hfind]
      refine ⟨HandlerResult.redirectIndex,
        FileState.content (encodePosts (likeFirst ps pid)), likeFirst ps pid,
        ?_, load_posts_encode _, ?_, likeFirst_map_id ps pid⟩
      · simp [like, hf, h, save_posts]
      · rw [likeFirst_map_id]
        exact hnd
  · cases hfind : ps.find? (fun r => r.id == pid) with
    | none =>
      have hf : fetch_post_by_id fs pid = Except.ok none := by
        simp [fetch_post_by_id, h, hfind]
      refine ⟨HandlerResult.errorPage "Post not found" 404, fs, ps,
        by simp [delete, hf], h, hnd, ?_⟩
      rw [List.find?_eq_none] at hfind
      symm
      rw [List.filter_eq_self]
      intro i hi
      rw [List.mem_map] at hi
      obtain ⟨p, hp, hpi⟩ := hi
      have := hfind p hp
      simp only [beq_iff_eq] at this
      simp [← hpi, this]
    | some q =>
      have hf : fetch_post_by_id fs pid = Except.ok (some q) := by
        simp [fetch_post_by_id, h, hfind]
      refine ⟨HandlerResult.redirectIndex,
        FileState.content (encodePosts (ps.filter (fun p => p.id != pid))),
        ps.filter (fun p => p.id != pid),
        ?_, load_posts_encode _, ?_, filter_map_id ps pid⟩
      · simp [delete, hf, h, save_posts]
      · rw [filter_map_id]
        exact hnd.filter _

/-- Witness for C5 at the empty collection and concrete inputs. -/
theorem C5_id_invariants_witness :
    (∃ r fs2 ps2, add true emptyStore "a" "t" "c" = Except.ok (r, fs2) ∧
      load_posts fs2 = Except.ok ps2 ∧ (ps2.map Post.id).Nodup ∧
      (ps2.map Post.id = ([] : List Post).map Post.id ∨
       ps2.map Post.id = ([] : List Post).map Post.id ++
         [maxIdDefault0 [] + 1])) ∧
    (∃ r fs2 ps2, update true emptyStore 7 "a" "t" "c" = Except.ok (r, fs2) ∧
      load_posts fs2 = Except.ok ps2 ∧ (ps2.map Post.id).Nodup ∧
      ps2.map Post.id = ([] : List Post).map Post.id) ∧
    (∃ r fs2 ps2, like true emptyStore 7 = Except.ok (r, fs2) ∧
      load_posts fs2 = Except.ok ps2 ∧ (ps2.map Post.id).Nodup ∧
      ps2.map Post.id = ([] : List Post).map Post.id) ∧
    (∃ r fs2 ps2, delete true emptyStore 7 = Except.ok (r, fs2) ∧
      load_posts fs2 = Except.ok ps2 ∧ (ps2.map Post.id).Nodup ∧
      ps2.map Post.id =
        (([] : List Post).map Post.id).filter (fun i => i != 7)) :=
  C5_id_invariants emptyStore [] rfl (by simp) 7 "a" "t" "c"

/-- C7: on a store with posts of ids 1, 2, 3, deleting id 2 leaves exactly
the posts with ids 1 and 3 unchanged, and a second delete of id 2 reports
"Post not found" and leaves the store unchanged. -/
theorem C7_delete_removes_exactly_one (p1 p2 p3 : Post)
    (h1 : p1.id = 1) (h2 : p2.id = 2) (h3 : p3.id = 3) :
    ∃ fs2, delete true (FileState.content (encodePosts [p1, p2, p3])) 2 =
        Except.ok (HandlerResult.redirectIndex, fs2) ∧
      load_posts fs2 = Except.ok [p1, p3] ∧
      delete true fs2 2 =
        Except.ok (HandlerResult.errorPage "Post not found" 404, fs2) := by
  have e1 : (p1.id == (2 : Int)) = false := by rw [h1]; decide
  have e2 : (p2.id == (2 : Int)) = true := by rw [h2]; decide
  have e3 : (p3.id == (2 : Int)) = false := by rw [h3]; decide
  have b1 : (p1.id != (2 : Int)) = true := by rw [h1]; decide
  have b2 : (p2.id != (2 : Int)) = false := by rw [h2]; decide
  have b3 : (p3.id != (2 : Int)) = true := by rw [h3]; decide
  have hload : load_posts (FileState.content (encodePosts [p1, p2, p3])) =
      Except.ok [p1, p2, p3] := load_posts_encode _
  have hfind : [p1, p2, p3].find? (fun r => r.id == (2 : Int)) = some p2 := by
    simp [List.find?, e1, e2]
  have hfilter : [p1, p2, p3].filter (fun p => p.id != (2 : Int)) = [p1, p3] := by
    simp [List.filter, b1, b2, b3]
  refine ⟨FileState.content (encodePosts [p1, p3]), ?_, load_posts_encode _, ?_⟩
  · simp [delete, fetch_post_by_id, hload, hfind, hfilter, save_posts]
  · have hf2 : [p1, p3].find? (fun r => r.id == (2 : Int)) = none := by
      simp [List.find?, e1, e3]
    simp [delete, fetch_post_by_id, load_posts_encode, hf2]

/-- Witness for C7 at three concrete posts with ids 1, 2, 3. -/
theorem C7_delete_removes_exactly_one_witness :
    ∃ fs2, delete true (FileState.content (encodePosts
        [⟨1, "a", "t", "c", 0⟩, ⟨2, "b", "u", "d", 0⟩, ⟨3, "e", "v", "f", 0⟩])) 2 =
        Except.ok (HandlerResult.redirectIndex, fs2) ∧
      load_posts fs2 =
        Except.ok [⟨1, "a", "t", "c", 0⟩, ⟨3, "e", "v", "f", 0⟩] ∧
      delete true fs2 2 =
        Except.ok (HandlerResult.errorPage "Post not found" 404, fs2) :=
  C7_delete_removes_exactly_one ⟨1, "a", "t", "c", 0⟩ ⟨2, "b", "u", "d", 0⟩
    ⟨3, "e", "v", "f", 0⟩ rfl rfl rfl

/-- C8: on a store whose posts have pairwise distinct ids, liking an existing
id redirects and the stored collection becomes the old one with exactly the
target post's likes incremented by one, all its other fields and all other
posts unchanged. -/
theorem C8_like_increments_only_target (fs : FileState) (ps : List Post)
    (h : load_posts fs = Except.ok ps) (hnd : (ps.map Post.id).Nodup)
    (p : Post) (hp : p ∈ ps) (pid : Int) (hid : p.id = pid) :
    ∃ fs2, like true fs pid = Except.ok (HandlerResult.redirectIndex, fs2) ∧
      load_posts fs2 = Except.ok (ps.map (fun q =>
        if q.id = pid then { q with likes := q.likes + 1 } else q)) := by
  obtain ⟨q, hq⟩ := find?_some_of_mem ps p hp pid hid
  have hf : fetch_post_by_id fs pid = Except.ok (some q) := by
    simp [fetch_post_by_id, h, hq]
  refine ⟨FileState.content (encodePosts (likeFirst ps pid)), ?_, ?_⟩
  · simp [like, hf, h, save_posts]
  · rw [likeFirst_eq_map ps pid hnd]
    exact load_posts_encode _

/-- Witness for C8: two posts with likes 0, liking id 1. -/
theorem C8_like_increments_only_target_witness :
    ∃ fs2, like true (FileState.content (encodePosts
        [⟨1, "a", "t", "c", 0⟩, ⟨2, "b", "u", "d", 0⟩])) 1 =
        Except.ok (HandlerResult.redirectIndex, fs2) ∧
      load_posts fs2 = Except.ok
        ([⟨1, "a", "t", "c", 0⟩, ⟨2, "b", "u", "d", 0⟩].map (fun q =>
          if q.id = 1 then { q with likes := q.likes + 1 } else q)) :=
  C8_like_increments_only_target
    (FileState.content (encodePosts
      [⟨1, "a", "t", "c", 0⟩, ⟨2, "b", "u", "d", 0⟩]))
    [⟨1, "a", "t", "c", 0⟩, ⟨2, "b", "u", "d", 0⟩] rfl (by decide)
    ⟨1, "a", "t", "c", 0⟩ (by decide) 1 rfl

/-- C9: validation does not trim whitespace: fields made entirely of spaces
(within the caps) are accepted, while an empty field is rejected. -/
theorem C9_whitespace_not_trimmed (n m k : Nat)
    (hn1 : 0 < n) (hn2 : n ≤ 100) (hm1 : 0 < m) (hm2 : m ≤ 200)
    (hk1 : 0 < k) (hk2 : k ≤ 10000) :
    (validate_post_data (String.mk (List.replicate n ' '))
      (String.mk (List.replicate m ' '))
      (String.mk (List.replicate k ' '))).1 = true ∧
    (validate_post_data "" (String.mk (List.replicate m ' '))
      (String.mk (List.replicate k ' '))).1 = false ∧
    (validate_post_data (String.mk (List.replicate n ' ')) ""
      (String.mk (List.replicate k ' '))).1 = false ∧
    (validate_post_data (String.mk (List.replicate n ' '))
      (String.mk (List.replicate m ' ')) "").1 = false := by
  have hlen : ∀ j : Nat, (String.mk (List.replicate j ' ')).length = j := by
    intro j
    simp [String.length]
  have hne : ∀ j : Nat, 0 < j → String.mk (List.replicate j ' ') ≠ "" := by
    intro j hj he
    have := congrArg String.length he
    rw [hlen j] at this
    simp at this
    omega
  have c1 : ¬(String.mk (List.replicate n ' ') = "" ∨
      String.mk (List.replicate m ' ') = "" ∨
      String.mk (List.replicate k ' ') = "") := by
    push_neg
    exact ⟨hne n hn1, hne m hm1, hne k hk1⟩
  have c2 : ¬((String.mk (List.replicate n ' ')).length > 100 ∨
      (String.mk (List.replicate m ' ')).length > 200 ∨
      (String.mk (List.replicate k ' ')).length > 10000) := by
    push_neg
    rw [hlen n, hlen m, hlen k]
    omega
  refine ⟨?_, ?_, ?_, ?_⟩
  · have c3 : ¬(100 < n ∨ 200 < m ∨ 10000 < k) := by omega
    simp [validate_post_data, c1, c2, c3]
  · simp [validate_post_data]
  · simp [validate_post_data]
  · simp [validate_post_data]

/-- Witness for C9 at single-space fields. -/
theorem C9_whitespace_not_trimmed_witness :
    (validate_post_data (String.mk (List.replicate 1 ' '))
      (String.mk (List.replicate 1 ' '))
      (String.mk (List.replicate 1 ' '))).1 = true ∧
    (validate_post_data "" (String.mk (List.replicate 1 ' '))
      (String.mk (List.replicate 1 ' '))).1 = false ∧
    (validate_post_data (String.mk (List.replicate 1 ' ')) ""
      (String.mk (List.replicate 1 ' '))).1 = false ∧
    (validate_post_data (String.mk (List.replicate 1 ' '))
      (String.mk (List.replicate 1 ' ')) "").1 = false :=
  C9_whitespace_not_trimmed 1 1 1 (by decide) (by decide) (by decide)
    (by decide) (by decide) (by decide)

set_option maxRecDepth 10000 in
/-- C10: form fields are HTML-escaped before validation, so the length caps
apply to the escaped text: an author of 100 ampersands (raw length 100,
escaped length 500) makes both the add and the update handler report the
length validation error and leave the file unchanged. -/
theorem C10_caps_apply_to_escaped_text :
    (String.mk (List.replicate 100 '&')).length = 100 ∧
    (escape (String.mk (List.replicate 100 '&'))).length = 500 ∧
    add true emptyStore (String.mk (List.replicate 100 '&')) "t" "c" =
      Except.ok (HandlerResult.errorPage "Input exceeds maximum length." 400,
        emptyStore) ∧
    update true (FileState.content (encodePosts [⟨1, "a", "t", "c", 0⟩])) 1
        (String.mk (List.replicate 100 '&')) "t" "c" =
      Except.ok (HandlerResult.errorPage "Input exceeds maximum length." 400,
        FileState.content (encodePosts [⟨1, "a", "t", "c", 0⟩])) :=
  ⟨rfl, rfl, rfl, rfl⟩

end Masterblog
